import Mathlib

/-!
Verification of the client-resident caching / freshness layer of the
mini-rose-search-jsonl repository (`src/static/service-worker.js`).

The file shallowly embeds the two service-worker variants found in that
source file:

* variant A (lines 9-122): delete-all-caches activation, the
  `/health` / `/version` diagnostic wrapper (`handleHealthOrVersion`,
  `decideReturnHref`, `wrapSimplePage`, `escapeHtml`, `networkOnly`) and a
  network-only fetch policy;
* variant B (lines 123-229): versioned cache `app-static-v-<VER>`,
  precache on install, delete-other-generations activation, and a fetch
  policy with document / api / static / other branches.

Platform primitives (the network, `JSON.parse`/`JSON.stringify`,
`Date.now`) are modelled as explicit oracles passed to the handlers; the
Cache Storage API (`caches.open` / `cache.match` / `cache.put` /
`caches.keys` / `caches.delete`) is modelled as an association-list store.
A network oracle is indexed by a call counter so that the number of
network calls a handler performs is observable.
-/

namespace MiniRoseSW

/-! ## Character-list utilities (substring machinery) -/

/-- `isPrefL p s` decides whether the character list `p` starts the list `s`. -/
def isPrefL : List Char → List Char → Bool
  | [], _ => true
  | _ :: _, [] => false
  | a :: as, b :: bs => a == b && isPrefL as bs

/-- `hasSubL p s` decides whether `p` occurs contiguously inside `s`. -/
def hasSubL (p : List Char) : List Char → Bool
  | [] => isPrefL p []
  | c :: cs => isPrefL p (c :: cs) || hasSubL p cs

/-- The nonempty suffixes of a character list. -/
def tailsL : List Char → List (List Char)
  | [] => []
  | c :: cs => (c :: cs) :: tailsL cs

/-- `spanClean p c` holds when no nonempty proper suffix of `c` is a strict
start of `p`; an occurrence of `p` in `c ++ t` then cannot straddle the
boundary between `c` and `t`. -/
def spanClean (p c : List Char) : Bool :=
  (tailsL c).all (fun s => !(isPrefL s p) || decide (p.length ≤ s.length))

/-- `strStarts s pat` decides whether the string `s` starts with `pat`
(the embedding of JavaScript `String.prototype.startsWith`). -/
def strStarts (s pat : String) : Bool := isPrefL pat.data s.data

/-- `strHasSub s pat` decides whether `pat` occurs inside `s`
(the embedding of JavaScript `String.prototype.includes`). -/
def strHasSub (s pat : String) : Bool := hasSubL pat.data s.data

theorem isPrefL_nil (s : List Char) : isPrefL [] s = true := by
  cases s <;> rfl

theorem isPrefL_span (s : List Char) : ∀ (p t : List Char),
    isPrefL p s = false → isPrefL p (s ++ t) = true →
    isPrefL s p = true ∧ s.length < p.length := by
  induction s with
  | nil =>
    intro p t hfail hok
    cases p with
    | nil => simp [isPrefL] at hfail
    | cons b bs => exact ⟨isPrefL_nil _, by simp⟩
  | cons a as ih =>
    intro p t hfail hok
    cases p with
    | nil => simp [isPrefL_nil] at hfail
    | cons b bs =>
      simp only [List.cons_append, isPrefL, Bool.and_eq_true, beq_iff_eq] at hok
      obtain ⟨hba, hrest⟩ := hok
      simp only [isPrefL, hba, beq_self_eq_true, Bool.true_and] at hfail
      obtain ⟨hpre, hlen⟩ := ih bs t hfail hrest
      refine ⟨?_, by simpa using Nat.succ_lt_succ hlen⟩
      simp [isPrefL, hba, hpre]

theorem hasSubL_append_safe (p : List Char) : ∀ (c t : List Char),
    hasSubL p c = false → spanClean p c = true →
    hasSubL p (c ++ t) = hasSubL p t := by
  intro c
  induction c with
  | nil => intro t _ _; rfl
  | cons x xs ih =>
    intro t h1 h2
    simp only [hasSubL, Bool.or_eq_false_iff] at h1
    obtain ⟨hp, hs⟩ := h1
    simp only [spanClean, tailsL, List.all_cons, Bool.and_eq_true] at h2
    obtain ⟨hhead, htail⟩ := h2
    have hnp : isPrefL p ((x :: xs) ++ t) = false := by
      by_contra hcon
      rw [Bool.not_eq_false] at hcon
      obtain ⟨hpre, hlen⟩ := isPrefL_span (x :: xs) p t hp hcon
      simp only [hpre, Bool.not_true, Bool.false_or, decide_eq_true_eq] at hhead
      omega
    have hstep : hasSubL p ((x :: xs) ++ t)
        = (isPrefL p ((x :: xs) ++ t) || hasSubL p (xs ++ t)) := rfl
    rw [hstep, hnp, Bool.false_or, ih t hs (by simp [spanClean, htail])]

theorem isPrefL_trans (q : List Char) : ∀ (p s : List Char),
    isPrefL q p = true → isPrefL p s = true → isPrefL q s = true := by
  induction q with
  | nil => intro p s _ _; exact isPrefL_nil s
  | cons a as ih =>
    intro p s hqp hps
    cases p with
    | nil => simp [isPrefL] at hqp
    | cons b bs =>
      cases s with
      | nil => simp [isPrefL] at hps
      | cons c cs =>
        simp only [isPrefL, Bool.and_eq_true, beq_iff_eq] at hqp hps ⊢
        exact ⟨hqp.1.trans hps.1, ih bs cs hqp.2 hps.2⟩

theorem hasSubL_mono (q p : List Char) (hqp : isPrefL q p = true) :
    ∀ s : List Char, hasSubL p s = true → hasSubL q s = true := by
  intro s
  induction s with
  | nil =>
    intro h
    simp only [hasSubL] at h ⊢
    exact isPrefL_trans q p [] hqp h
  | cons c cs ih =>
    intro h
    simp only [hasSubL, Bool.or_eq_true] at h ⊢
    rcases h with h | h
    · exact Or.inl (isPrefL_trans q p (c :: cs) hqp h)
    · exact Or.inr (ih h)

theorem isPrefL_self_append (p : List Char) : ∀ t, isPrefL p (p ++ t) = true := by
  induction p with
  | nil => intro t; exact isPrefL_nil t
  | cons a as ih => intro t; simp [isPrefL, ih]

theorem hasSubL_here (p t : List Char) : hasSubL p (p ++ t) = true := by
  cases p with
  | nil => cases t <;> simp [hasSubL, isPrefL]
  | cons a as =>
    simp only [hasSubL, List.cons_append, Bool.or_eq_true]
    exact Or.inl (isPrefL_self_append (a :: as) t)

theorem hasSubL_append_left (p : List Char) : ∀ (a t : List Char),
    hasSubL p t = true → hasSubL p (a ++ t) = true := by
  intro a
  induction a with
  | nil => intro t h; exact h
  | cons x xs ih =>
    intro t h
    simp only [List.cons_append, hasSubL, Bool.or_eq_true]
    exact Or.inr (ih t h)

theorem tailsL_mem (l : List Char) : ∀ s, s ∈ tailsL l →
    ∃ c cs, s = c :: cs ∧ c ∈ l := by
  induction l with
  | nil => intro s h; simp [tailsL] at h
  | cons x xs ih =>
    intro s h
    simp only [tailsL, List.mem_cons] at h
    rcases h with h | h
    · exact ⟨x, xs, h, List.mem_cons_self x xs⟩
    · obtain ⟨c, cs, rfl, hc⟩ := ih s h
      exact ⟨c, cs, rfl, List.mem_cons_of_mem x hc⟩

/-! ## Data model: responses, requests, the cache storage -/

/-- An HTTP response as the service worker observes it: status code,
header list, body text. -/
structure Response where
  status : Nat
  headers : List (String × String)
  body : String
deriving Repr, DecidableEq

/-- The embedding of the JavaScript `Response.ok` getter: status in [200, 300). -/
def Response.ok (r : Response) : Bool := 200 ≤ r.status && r.status < 300

/-- A request as the fetch listeners inspect it.  The URL is modelled by its
pathname together with the optional `v` query parameter (the only query
parameter the source ever reads, via `url.searchParams.get("v")`) and the
origin. -/
structure Request where
  method : String
  pathname : String
  searchV : Option String
  origin : String
  mode : String
  dest : String
  accept : String
deriving Repr, DecidableEq

/-- A cache key: pathname plus optional `v` query parameter, the parts of
the request URL the model carries. -/
abbrev CacheKey := String × Option String

/-- One named cache: an association list from keys to stored responses. -/
abbrev Cache := List (CacheKey × Response)

/-- The Cache Storage: an association list from cache names to caches. -/
abbrev CacheStore := List (String × Cache)

/-- The network oracle: result of the n-th `fetch` call of a handler
run, either a response or a thrown error message. -/
abbrev Net := Nat → Request → Except String Response

/-- Truth of `res.ok` guarded by the try/catch pattern
`try { const res = await fetch(...); if (res.ok) ... } catch {}`. -/
def exceptOk : Except String Response → Bool
  | .ok r => r.ok
  | .error _ => false

/-- Whether a `fetch` call rejected. -/
def isNetErr : Except String Response → Bool
  | .ok _ => false
  | .error _ => true

/-- Lookup of a named cache (the read half of `caches.open`). -/
def storeFind : CacheStore → String → Option Cache
  | [], _ => none
  | (n, c) :: rest, name => if n = name then some c else storeFind rest name

/-- The embedding of `caches.open(name)`: creates the cache when absent. -/
def cachesOpen (store : CacheStore) (name : String) : CacheStore :=
  match storeFind store name with
  | some _ => store
  | none => store ++ [(name, [])]

/-- The embedding of `cache.match(key)`. -/
def cacheGet : Cache → CacheKey → Option Response
  | [], _ => none
  | (k, r) :: rest, key => if k = key then some r else cacheGet rest key

/-- The embedding of `cache.put(key, resp)`: last write wins. -/
def cachePut : Cache → CacheKey → Response → Cache
  | [], key, resp => [(key, resp)]
  | (k, r) :: rest, key, resp =>
    if k = key then (key, resp) :: rest else (k, r) :: cachePut rest key resp

/-- Replacement of the cache stored under `name` (used after `cache.put`
through a handle obtained from `caches.open`). -/
def storeSet : CacheStore → String → Cache → CacheStore
  | [], _, _ => []
  | (n, c) :: rest, name, cache =>
    if n = name then (name, cache) :: rest else (n, c) :: storeSet rest name cache

/-- The embedding of `caches.keys()`. -/
def cachesKeys (store : CacheStore) : List String := store.map Prod.fst

/-- Deletion of every cache whose name is listed (the
`Promise.all(keys.map(k => caches.delete(k)))` pattern). -/
def cachesDeleteAll (store : CacheStore) (ks : List String) : CacheStore :=
  store.filter (fun p => !(ks.contains p.1))

/-- The entry stored for `key` in the cache named `name`; `none` both when
the cache or the entry is absent. -/
def storeEntry (store : CacheStore) (name : String) (key : CacheKey) : Option Response :=
  cacheGet ((storeFind store name).getD []) key

/-! ## Variant A utilities (source lines 29-97) -/

/-- The double-quote character. -/
def dquote : Char := Char.ofNat 34

/-- The single-quote character. -/
def squote : Char := Char.ofNat 39

/-- Replacement of one character under the regex `/[&<>"']/g` of
`escapeHtml` (source lines 29-33). -/
def escapeCharL (c : Char) : List Char :=
  if c == '&' then "&amp;".data
  else if c == '<' then "&lt;".data
  else if c == '>' then "&gt;".data
  else if c == dquote then "&quot;".data
  else if c == squote then "&#39;".data
  else [c]

/-- Character-list version of `escapeHtml`. -/
def escapeHtmlL : List Char → List Char
  | [] => []
  | c :: cs => escapeCharL c ++ escapeHtmlL cs

/-- The embedding of `escapeHtml` (source lines 29-33): every occurrence of
one of the five characters is replaced by its HTML entity. -/
def escapeHtml (s : String) : String := ⟨escapeHtmlL s.data⟩

/-- Document chrome of `wrapSimplePage`, part before the first `title`
interpolation. -/
def pagePre1 : String :=
  "<!doctype html>\n<html lang=\"ja\"><head>\n<meta charset=\"utf-8\"><meta name=\"viewport\" content=\"width=device-width,initial-scale=1\">\n<title>"

/-- Document chrome between the `title` interpolations (the style block). -/
def pagePre2 : String :=
  "</title><meta name=\"robots\" content=\"noindex\">\n<style>\n:root\x7b--bg:#fafafa;--card:#fff;--b:#e5e7eb;--txt:#0f172a;--link:#2563eb;--muted:#64748b\x7d\nbody\x7bbackground:var(--bg);color:var(--txt);margin:0;font-family:system-ui,-apple-system,Segoe UI,Roboto,Helvetica,Arial\x7d\n.wrap\x7bmax-width:900px;margin:16px auto;padding:0 16px\x7d\n.card\x7bbackground:var(--card);border:1px solid var(--b);border-radius:12px;padding:12px\x7d\npre\x7bwhite-space:pre-wrap;word-break:break-word;background:#f8fafc;border:1px solid var(--b);border-radius:8px;padding:10px;margin:8px 0\x7d\na.btn\x7bdisplay:inline-block;padding:10px 14px;border:1px solid var(--b);border-radius:10px;text-decoration:none;color:var(--link);background:var(--card)\x7d\n</style></head><body>\n<div class=\"wrap\"><h1>"

/-- Document chrome between the second `title` interpolation and the body. -/
def pagePre3 : String := "</h1><div class=\"card\">"

/-- Document chrome after the body interpolation. -/
def pagePost : String := "</div></div></body></html>"

/-- The HTML document assembled by `wrapSimplePage` (source lines 35-51). -/
def wrapSimplePageHtml (title bodyHtml : String) : String :=
  pagePre1 ++ title ++ pagePre2 ++ title ++ pagePre3 ++ bodyHtml ++ pagePost

/-- The embedding of `wrapSimplePage`: a 200 HTML response wrapping the
given body. -/
def wrapSimplePage (title bodyHtml : String) : Response :=
  { status := 200
    headers := [("Content-Type", "text/html; charset=utf-8"), ("Cache-Control", "no-store")]
    body := wrapSimplePageHtml title bodyHtml }

/-- The `HEAD origin + "/ui"` probe request of `decideReturnHref`. -/
def headProbe (origin : String) : Request :=
  { method := "HEAD", pathname := "/ui", searchV := none, origin := origin
    mode := "", dest := "", accept := "" }

/-- The `GET origin + "/ui"` probe request of `decideReturnHref`. -/
def getProbe (origin : String) : Request :=
  { method := "GET", pathname := "/ui", searchV := none, origin := origin
    mode := "", dest := "", accept := "" }

/-- The embedding of `decideReturnHref` (source lines 53-64): probe `/ui`
with HEAD, fall back to GET, default to the root.  Returns the chosen href
and the next network-call index. -/
def decideReturnHref (net : Net) (n : Nat) (origin : String) : String × Nat :=
  if exceptOk (net n (headProbe origin)) then ("/ui", n + 1)
  else if exceptOk (net (n + 1) (getProbe origin)) then ("/ui", n + 2)
  else ("/", n + 2)

/-- The embedding of the pretty-printing step of `handleHealthOrVersion`
(source lines 75-77): `jsonPP` models `JSON.stringify(JSON.parse(text),
null, 2)`, returning `none` when `JSON.parse` throws; on parse failure a
body longer than 20000 characters is truncated. -/
def prettify (jsonPP : String → Option String) (text : String) : String :=
  match jsonPP text with
  | some p => p
  | none =>
    if text.length > 20000 then text.take 20000 ++ "\n...[truncated]..." else text

/-- Platform oracles of variant A: the network, the JSON round-trip, and
the two `Date.now()` readings. -/
structure OraclesA where
  net : Net
  jsonPP : String → Option String
  t0 : Nat
  t1 : Nat

/-- Metadata-and-body fragment interpolated by `handleHealthOrVersion`
(source lines 80-84); all upstream-derived text passes through
`escapeHtml`, the return href is interpolated as is. -/
def diagBody (status ms : Nat) (pathname pretty backHref : String) : String :=
  "\n    <div style=\"font-size:13px;color:var(--muted)\">status=" ++
    escapeHtml (toString status) ++
  "　time=" ++ escapeHtml (toString ms) ++ "ms　path=" ++ escapeHtml pathname ++
  "</div>\n    <p>下はサーバーの最新応答です（常にネットから取得）。</p>\n    <pre>" ++
    escapeHtml pretty ++
  "</pre>\n    <p><a class=\"btn\" href=\"" ++ backHref ++ "\">← 検索画面に戻る</a></p>"

/-- The embedding of `handleHealthOrVersion` (source lines 66-86): always
fetch the diagnostic endpoint fresh, capture status and latency, pretty
print or truncate the body, resolve the return link, wrap everything.
Returns the response and the next network-call index. -/
def handleHealthOrVersion (o : OraclesA) (n : Nat) (req : Request) : Response × Nat :=
  let title := if req.pathname == "/health" then "Health" else "Version"
  let fr := o.net n req
  let status := match fr with | .ok r => r.status | .error _ => 0
  let text := match fr with | .ok r => r.body | .error e => e
  let pretty := prettify o.jsonPP text
  let ms := o.t1 - o.t0
  let bh := decideReturnHref o.net (n + 1) req.origin
  (wrapSimplePage ("Mini Rose — " ++ title) (diagBody status ms req.pathname pretty bh.1),
   bh.2)

/-- Body fragment of the network-error page of `networkOnly`
(source line 93). -/
def netErrBody (msg : String) : String :=
  "<p>最新画面を取得できません。</p><pre>" ++ escapeHtml msg ++ "</pre>"

/-- The embedding of `networkOnly` (source lines 88-97): fetch once; on
rejection return the error page for documents, else a plain 503. -/
def networkOnly (net : Net) (n : Nat) (req : Request) (isDocument : Bool) :
    Response × Nat :=
  match net n req with
  | .ok r => (r, n + 1)
  | .error e =>
    if isDocument then
      (wrapSimplePage "ネットワークエラー" (netErrBody e), n + 1)
    else
      ({ status := 503, headers := [("Cache-Control", "no-store")], body := "Network error" },
       n + 1)

/-- Document test common to both fetch listeners: navigation mode, document
destination, or an Accept header containing `text/html`. -/
def isDocumentReq (req : Request) : Bool :=
  req.mode == "navigate" || req.dest == "document" || strHasSub req.accept "text/html"

/-- Routing category of the variant A fetch listener (source lines
100-122), mirroring its branch order: the diagnostic special case, then
documents, then the reserved api/static/favicon branch, then the rest. -/
inductive CategoryA | diagnostic | document | reserved | other
deriving Repr, DecidableEq

/-- Classification performed by the variant A fetch listener. -/
def classifyA (req : Request) : CategoryA :=
  if isDocumentReq req && (req.pathname == "/health" || req.pathname == "/version") then
    .diagnostic
  else if isDocumentReq req then .document
  else if strStarts req.pathname "/api/" || strStarts req.pathname "/static/" ||
      strStarts req.pathname "/favicon" then .reserved
  else .other

/-- The embedding of the variant A fetch listener (source lines 100-122).
Variant A never touches the cache storage from its fetch path. -/
def handleFetchA (o : OraclesA) (req : Request) : Response × Nat :=
  if isDocumentReq req && (req.pathname == "/health" || req.pathname == "/version") then
    handleHealthOrVersion o 0 req
  else if isDocumentReq req then
    networkOnly o.net 0 req true
  else if strStarts req.pathname "/api/" || strStarts req.pathname "/static/" ||
      strStarts req.pathname "/favicon" then
    networkOnly o.net 0 req false
  else
    networkOnly o.net 0 req false

/-- The embedding of the variant A activate listener (source lines 13-26):
enumerate every cache name and delete them all. -/
def activateA (store : CacheStore) : CacheStore :=
  cachesDeleteAll store (cachesKeys store)

/-! ## Variant B (source lines 123-229) -/

/-- The name `STATIC_CACHE = "app-static-" + CACHE_VERSION` with
`CACHE_VERSION = "v-" + VER` (source lines 128-131). -/
def staticCacheName (ver : String) : String := "app-static-" ++ ("v-" ++ ver)

/-- Canonical cache key of a request: its URL as the model carries it. -/
def reqKey (req : Request) : CacheKey := (req.pathname, req.searchV)

/-- The four `PRECACHE_URLS` requests (source lines 134-139), each stamped
with the active version. -/
def precacheReqs (ver : String) : List Request :=
  [ { method := "GET", pathname := "/static/manifest.json", searchV := some ver
      origin := "", mode := "", dest := "", accept := "" }
  , { method := "GET", pathname := "/static/icons/icon-192.png", searchV := some ver
      origin := "", mode := "", dest := "", accept := "" }
  , { method := "GET", pathname := "/static/icons/icon-512.png", searchV := some ver
      origin := "", mode := "", dest := "", accept := "" }
  , { method := "GET", pathname := "/static/icons/maskable-512.png", searchV := some ver
      origin := "", mode := "", dest := "", accept := "" } ]

/-- The embedding of the variant B install listener (source lines 141-147):
`caches.open(STATIC_CACHE).then(cache => cache.addAll(PRECACHE_URLS))` is
passed to `event.waitUntil` with no error handling, and `Cache.addAll`
rejects when any fetch throws or yields a non-ok response; a rejected
`waitUntil` promise fails the installation, modelled as `none`. -/
def installB (ver : String) (net : Request → Except String Response)
    (store : CacheStore) : Option CacheStore :=
  let name := staticCacheName ver
  let store1 := cachesOpen store name
  let c := (storeFind store1 name).getD []
  if (precacheReqs ver).all (fun r => exceptOk (net r)) then
    let c2 := (precacheReqs ver).foldl (fun acc r =>
      match net r with
      | .ok resp => cachePut acc (reqKey r) resp
      | .error _ => acc) c
    some (storeSet store1 name c2)
  else none

/-- The embedding of the variant B activate listener (source lines
149-156): delete every cache except the current `STATIC_CACHE`. -/
def activateB (ver : String) (store : CacheStore) : CacheStore :=
  cachesDeleteAll store ((cachesKeys store).filter (fun k => k != staticCacheName ver))

/-- Routing category of the variant B fetch listener (source lines
158-229), in its branch order. -/
inductive Category | document | api | staticVersioned | staticUnversioned | other
deriving Repr, DecidableEq

/-- Classification performed by the variant B fetch listener: documents
first, then the api path, then static read requests (versioned iff a `v`
query parameter is present), then everything else. -/
def classifyB (req : Request) : Category :=
  if isDocumentReq req then .document
  else if strStarts req.pathname "/api/" then .api
  else if req.method == "GET" &&
      (strStarts req.pathname "/static/" || strStarts req.pathname "/favicon") then
    if req.searchV.isSome then .staticVersioned else .staticUnversioned
  else .other

/-- The plain-text offline fallback of the variant B document branch
(source lines 175-178). -/
def offlineResp : Response :=
  { status := 503
    headers := [("Content-Type", "text/plain; charset=utf-8")]
    body := "オフラインです。再接続してください。" }

/-- The empty-body 504 returned by the static branch on network failure
(source lines 208 and 221). -/
def unavailableResp : Response := { status := 504, headers := [], body := "" }

/-- Result of one variant B fetch-listener run: the response handed to
`event.respondWith` (`none` when the promise given to `respondWith`
rejects, so the request fails with a network error), the cache storage
afterwards, and the number of network calls performed. -/
structure ResultB where
  response : Option Response
  store : CacheStore
  calls : Nat
deriving Repr, DecidableEq

/-- The embedding of the variant B fetch listener (source lines 158-229).
Branches in source order: documents are fetched `no-store` with a cached
`/ui` (or plain 503) fallback; `/api/` is fetched with one uncaught retry;
static GET requests open `STATIC_CACHE`, bypass it entirely on a version
mismatch (empty 504 on failure), and are served cache-first with an
ok-only `cache.put` when the version matches or is absent; everything else
is fetched with one uncaught retry. -/
def handleFetchB (ver : String) (net : Net) (store : CacheStore) (n : Nat)
    (req : Request) : ResultB :=
  if isDocumentReq req then
    match net n req with
    | .ok r => ⟨some r, store, 1⟩
    | .error _ =>
      let store1 := cachesOpen store (staticCacheName ver)
      let c := (storeFind store1 (staticCacheName ver)).getD []
      match cacheGet c ("/ui", none) with
      | some hit => ⟨some hit, store1, 1⟩
      | none => ⟨some offlineResp, store1, 1⟩
  else if strStarts req.pathname "/api/" then
    match net n req with
    | .ok r => ⟨some r, store, 1⟩
    | .error _ =>
      match net (n + 1) req with
      | .ok r => ⟨some r, store, 2⟩
      | .error _ => ⟨none, store, 2⟩
  else if req.method == "GET" &&
      (strStarts req.pathname "/static/" || strStarts req.pathname "/favicon") then
    let name := staticCacheName ver
    let store1 := cachesOpen store name
    let c := (storeFind store1 name).getD []
    let versionMatches := req.searchV == none || req.searchV == some ver
    if !versionMatches then
      match net n req with
      | .ok r => ⟨some r, store1, 1⟩
      | .error _ => ⟨some unavailableResp, store1, 1⟩
    else
      match cacheGet c (reqKey req) with
      | some hit => ⟨some hit, store1, 0⟩
      | none =>
        match net n req with
        | .ok r =>
          if r.ok then ⟨some r, storeSet store1 name (cachePut c (reqKey req) r), 1⟩
          else ⟨some r, store1, 1⟩
        | .error _ => ⟨some unavailableResp, store1, 1⟩
  else
    match net n req with
    | .ok r => ⟨some r, store, 1⟩
    | .error _ =>
      match net (n + 1) req with
      | .ok r => ⟨some r, store, 2⟩
      | .error _ => ⟨none, store, 2⟩


/-! ## Cache-storage lemmas -/

theorem storeFind_append_none (name : String) : ∀ (s t : CacheStore),
    storeFind s name = none → storeFind (s ++ t) name = storeFind t name := by
  intro s t
  induction s with
  | nil => intro _; rfl
  | cons p rest ih =>
    intro h
    obtain ⟨n, c⟩ := p
    by_cases hn : n = name
    · simp [storeFind, hn] at h
    · simpa [storeFind, hn] using ih (by simpa [storeFind, hn] using h)

theorem storeFind_append_some (name : String) (c : Cache) : ∀ (s t : CacheStore),
    storeFind s name = some c → storeFind (s ++ t) name = some c := by
  intro s t
  induction s with
  | nil => intro h; simp [storeFind] at h
  | cons p rest ih =>
    intro h
    obtain ⟨n, c'⟩ := p
    by_cases hn : n = name
    · simp_all [storeFind, hn]
    · simpa [storeFind, hn] using ih (by simpa [storeFind, hn] using h)

theorem storeFind_open_same (s : CacheStore) (name : String) :
    storeFind (cachesOpen s name) name = some ((storeFind s name).getD []) := by
  unfold cachesOpen
  cases h : storeFind s name with
  | some c => simp [h]
  | none => rw [storeFind_append_none name s _ h]; simp [storeFind]

theorem cachesOpen_present (s : CacheStore) (name : String) (c : Cache)
    (h : storeFind s name = some c) : cachesOpen s name = s := by
  simp [cachesOpen, h]

theorem opened_cache (s : CacheStore) (name : String) :
    (storeFind (cachesOpen s name) name).getD [] = (storeFind s name).getD [] := by
  rw [storeFind_open_same]
  rfl

theorem storeFind_open_other (s : CacheStore) (opened target : String)
    (h : target ≠ opened) :
    storeFind (cachesOpen s opened) target = storeFind s target := by
  unfold cachesOpen
  cases hf : storeFind s opened with
  | some c => rfl
  | none =>
    cases hn : storeFind s target with
    | some c => rw [storeFind_append_some target c s _ hn]
    | none => rw [storeFind_append_none target s _ hn]; simp [storeFind, Ne.symm h]

theorem storeFind_set_same (name : String) (c : Cache) : ∀ (s : CacheStore) (c0 : Cache),
    storeFind s name = some c0 → storeFind (storeSet s name c) name = some c := by
  intro s
  induction s with
  | nil => intro c0 h; simp [storeFind] at h
  | cons p rest ih =>
    intro c0 h
    obtain ⟨n, c'⟩ := p
    by_cases hn : n = name
    · simp [storeSet, hn, storeFind]
    · simp only [storeFind, hn, if_false] at h
      have := ih c0 h
      simp [storeSet, hn, storeFind, this]

theorem storeFind_set_other (target setAt : String) (c : Cache) (h : target ≠ setAt) :
    ∀ s : CacheStore, storeFind (storeSet s setAt c) target = storeFind s target := by
  intro s
  induction s with
  | nil => rfl
  | cons p rest ih =>
    obtain ⟨n, c'⟩ := p
    by_cases hn : n = setAt
    · subst hn
      simp [storeSet, storeFind, Ne.symm h]
    · simp [storeSet, hn, storeFind, ih]

theorem cachesKeys_storeSet (name : String) (c : Cache) : ∀ s : CacheStore,
    cachesKeys (storeSet s name c) = cachesKeys s := by
  intro s
  induction s with
  | nil => rfl
  | cons p rest ih =>
    obtain ⟨n, c'⟩ := p
    by_cases hn : n = name
    · simp [storeSet, hn, cachesKeys]
    · simp only [storeSet, hn, if_false]
      simp only [cachesKeys, List.map_cons] at ih ⊢
      rw [ih]

theorem mem_of_storeFind (name : String) (c : Cache) : ∀ s : CacheStore,
    storeFind s name = some c → name ∈ cachesKeys s := by
  intro s
  induction s with
  | nil => intro h; simp [storeFind] at h
  | cons p rest ih =>
    intro h
    obtain ⟨n, c'⟩ := p
    by_cases hn : n = name
    · simp [cachesKeys, hn]
    · simp only [storeFind, hn, if_false] at h
      simp only [cachesKeys, List.map_cons, List.mem_cons]
      exact Or.inr (ih h)

theorem cacheGet_put_same (key : CacheKey) (r : Response) : ∀ c : Cache,
    cacheGet (cachePut c key r) key = some r := by
  intro c
  induction c with
  | nil => simp [cachePut, cacheGet]
  | cons p rest ih =>
    obtain ⟨k, r'⟩ := p
    by_cases hk : k = key
    · simp [cachePut, hk, cacheGet]
    · simp [cachePut, hk, cacheGet, ih]

theorem cacheGet_put_other (key key' : CacheKey) (r : Response) (h : key' ≠ key) :
    ∀ c : Cache, cacheGet (cachePut c key r) key' = cacheGet c key' := by
  intro c
  induction c with
  | nil => simp [cachePut, cacheGet, Ne.symm h]
  | cons p rest ih =>
    obtain ⟨k, r'⟩ := p
    by_cases hk : k = key
    · subst hk
      simp [cachePut, cacheGet, Ne.symm h]
    · simp [cachePut, hk, cacheGet, ih]

theorem deleteAll_covered (ks : List String) : ∀ s : CacheStore,
    (∀ p ∈ s, p.1 ∈ ks) → cachesDeleteAll s ks = [] := by
  intro s
  induction s with
  | nil => intro _; rfl
  | cons p rest ih =>
    intro h
    have hp : ks.contains p.1 = true := by
      simpa using h p (List.mem_cons_self p rest)
    have hfp : (!(ks.contains p.1)) = false := by rw [hp]; rfl
    have hrest := ih (fun q hq => h q (List.mem_cons_of_mem p hq))
    unfold cachesDeleteAll at hrest ⊢
    rw [List.filter_cons, hfp]
    simpa using hrest

/-- Every cache surviving the variant B activation carries the current
generation name. -/
theorem activateB_keys (ver : String) (s : CacheStore) (k : String)
    (h : k ∈ cachesKeys (activateB ver s)) : k = staticCacheName ver := by
  unfold activateB cachesDeleteAll at h
  simp only [cachesKeys, List.mem_map] at h
  obtain ⟨p, hp, rfl⟩ := h
  rw [List.mem_filter] at hp
  obtain ⟨hmem, hpred⟩ := hp
  by_contra hne
  have hbad : p.1 ∈ List.filter (fun k => k != staticCacheName ver)
      (List.map Prod.fst s) := by
    rw [List.mem_filter]
    constructor
    · exact List.mem_map_of_mem Prod.fst hmem
    · rw [bne_iff_ne]; exact hne
  have hcont : (List.filter (fun k => k != staticCacheName ver)
      (List.map Prod.fst s)).contains p.1 = true := by
    simpa using hbad
  rw [hcont] at hpred
  simp at hpred

/-- The current generation survives the variant B activation whenever it
existed before. -/
theorem activateB_keeps_current (ver : String) (s : CacheStore)
    (h : staticCacheName ver ∈ cachesKeys s) :
    staticCacheName ver ∈ cachesKeys (activateB ver s) := by
  simp only [cachesKeys, List.mem_map] at h
  obtain ⟨p, hp, hfst⟩ := h
  unfold activateB cachesDeleteAll
  simp only [cachesKeys, List.mem_map]
  refine ⟨p, ?_, hfst⟩
  rw [List.mem_filter]
  refine ⟨hp, ?_⟩
  cases hc : (List.filter (fun k => k != staticCacheName ver)
      (List.map Prod.fst s)).contains p.1 with
  | false => simp [hc]
  | true =>
    exfalso
    have hm : p.1 ∈ List.filter (fun k => k != staticCacheName ver)
        (List.map Prod.fst s) := by simpa using hc
    rw [List.mem_filter, hfst] at hm
    simp at hm

/-- Invariant stating that every stored response is ok. -/
def okStore (s : CacheStore) : Prop :=
  ∀ (nm : String) (k : CacheKey) (r : Response), storeEntry s nm k = some r → r.ok = true

theorem okStore_open (s : CacheStore) (name : String) (h : okStore s) :
    okStore (cachesOpen s name) := by
  intro nm k r hr
  by_cases hn : nm = name
  · subst hn
    rw [storeEntry, opened_cache] at hr
    exact h nm k r hr
  · rw [storeEntry, storeFind_open_other s name nm hn] at hr
    exact h nm k r hr

theorem okStore_put (s : CacheStore) (name : String) (key : CacheKey)
    (r : Response) (h : okStore s)
    (hex : ∃ c0, storeFind s name = some c0) (hok : r.ok = true) :
    okStore (storeSet s name (cachePut ((storeFind s name).getD []) key r)) := by
  intro nm k r' hr
  by_cases hn : nm = name
  · subst hn
    obtain ⟨c0, hc0⟩ := hex
    rw [storeEntry,
      storeFind_set_same nm (cachePut ((storeFind s nm).getD []) key r) s c0 hc0] at hr
    simp only [Option.getD_some] at hr
    by_cases hk : k = key
    · subst hk
      rw [cacheGet_put_same k r ((storeFind s nm).getD [])] at hr
      cases hr; exact hok
    · rw [cacheGet_put_other key k r hk ((storeFind s nm).getD [])] at hr
      exact h nm k r' hr
  · rw [storeEntry, storeFind_set_other nm name
      (cachePut ((storeFind s name).getD []) key r) hn s] at hr
    exact h nm k r' hr

/-! ## Escaping lemmas -/

/-- The dangerous characters for HTML contexts among the five escaped ones. -/
def badChar (c : Char) : Bool := c == '<' || c == '>' || c == dquote || c == squote

theorem data_append (a b : String) : (a ++ b).data = a.data ++ b.data := rfl

theorem escapeHtml_data (s : String) : (escapeHtml s).data = escapeHtmlL s.data := rfl

theorem escapeCharL_clean (c : Char) :
    (escapeCharL c).all (fun d => !(badChar d)) = true := by
  unfold escapeCharL
  split_ifs with h1 h2 h3 h4 h5
  · decide
  · decide
  · decide
  · decide
  · decide
  · simp only [List.all_cons, List.all_nil, Bool.and_true]
    rw [Bool.not_eq_true] at h2 h3 h4 h5
    simp [badChar, h2, h3, h4, h5]

theorem escapeHtmlL_clean : ∀ l : List Char,
    (escapeHtmlL l).all (fun d => !(badChar d)) = true := by
  intro l
  induction l with
  | nil => rfl
  | cons c cs ih =>
    simp only [escapeHtmlL, List.all_append, Bool.and_eq_true]
    exact ⟨escapeCharL_clean c, ih⟩

theorem hasSubL_lt_clean (ps : List Char) : ∀ l : List Char,
    l.all (fun d => !(badChar d)) = true → hasSubL ('<' :: ps) l = false := by
  intro l
  induction l with
  | nil => intro _; rfl
  | cons c cs ih =>
    intro h
    simp only [List.all_cons, Bool.and_eq_true] at h
    have hcb : badChar c = false := by
      have := h.1
      rwa [Bool.not_eq_true'] at this
    have hc : (('<' : Char) == c) = false := by
      rw [beq_eq_false_iff_ne]
      intro hEq
      rw [← hEq] at hcb
      simp [badChar] at hcb
    have hstep : hasSubL ('<' :: ps) (c :: cs)
        = (isPrefL ('<' :: ps) (c :: cs) || hasSubL ('<' :: ps) cs) := rfl
    rw [hstep, ih h.2]
    simp [isPrefL, hc]

theorem spanClean_lt_clean (ps : List Char) (l : List Char)
    (h : l.all (fun d => !(badChar d)) = true) :
    spanClean ('<' :: ps) l = true := by
  rw [spanClean, List.all_eq_true]
  intro s hs
  obtain ⟨c, cs, rfl, hc⟩ := tailsL_mem l s hs
  have hcb : badChar c = false := by
    rw [List.all_eq_true] at h
    have := h c hc
    rwa [Bool.not_eq_true'] at this
  have hcne : (c == '<') = false := by
    rw [beq_eq_false_iff_ne]
    intro hEq
    rw [hEq] at hcb
    simp [badChar] at hcb
  simp [isPrefL, hcne]

/-- The three-character pattern whose absence rules out any occurrence of
an opening script tag. -/
def scL : List Char := '<' :: ['s', 'c']

theorem peelEsc (l t : List Char) :
    hasSubL scL (escapeHtmlL l ++ t) = hasSubL scL t :=
  hasSubL_append_safe scL (escapeHtmlL l) t
    (hasSubL_lt_clean ['s', 'c'] (escapeHtmlL l) (escapeHtmlL_clean l))
    (spanClean_lt_clean ['s', 'c'] (escapeHtmlL l) (escapeHtmlL_clean l))

theorem noScript_of_noSc (l : List Char) (h : hasSubL scL l = false) :
    hasSubL "<script>".data l = false := by
  by_contra hcon
  rw [Bool.not_eq_false] at hcon
  have hmono := hasSubL_mono scL "<script>".data (by decide) l hcon
  rw [h] at hmono
  exact Bool.false_ne_true hmono

set_option maxRecDepth 40000

/-- Safety of a string piece inside a concatenation: it contains no
occurrence of the script-tag opener fragment and cannot begin one across
the boundary to the following piece. -/
def scSafe (s : String) : Prop :=
  hasSubL scL s.data = false ∧ spanClean scL s.data = true

theorem peelSafe (s : String) {t : List Char} (h : scSafe s) :
    hasSubL scL (s.data ++ t) = hasSubL scL t :=
  hasSubL_append_safe scL s.data t h.1 h.2

theorem peelEscI {l t : List Char} :
    hasSubL scL (escapeHtmlL l ++ t) = hasSubL scL t :=
  hasSubL_append_safe scL (escapeHtmlL l) t
    (hasSubL_lt_clean ['s', 'c'] (escapeHtmlL l) (escapeHtmlL_clean l))
    (spanClean_lt_clean ['s', 'c'] (escapeHtmlL l) (escapeHtmlL_clean l))

theorem scSafe_of_href (s : String) (h : s = "/ui" ∨ s = "/") : scSafe s := by
  rcases h with rfl | rfl
  · exact ⟨by decide, by decide⟩
  · exact ⟨by decide, by decide⟩

/-- The return href is always the probed shell path or the origin root. -/
theorem decideReturnHref_range (net : Net) (n : Nat) (origin : String) :
    (decideReturnHref net n origin).1 = "/ui" ∨ (decideReturnHref net n origin).1 = "/" := by
  unfold decideReturnHref
  split_ifs <;> simp

/-- No script tag can occur in a diagnostic page rendered through
`wrapSimplePage` with a `diagBody` body, whatever the upstream text. -/
theorem wrapDiag_noscript (title pathname pretty bh : String) (status ms : Nat)
    (ht : scSafe title) (hbh : scSafe bh) :
    strHasSub (wrapSimplePageHtml title (diagBody status ms pathname pretty bh))
      "<script>" = false := by
  unfold strHasSub
  apply noScript_of_noSc
  unfold wrapSimplePageHtml diagBody
  repeat rw [data_append]
  repeat rw [escapeHtml_data]
  repeat rw [List.append_assoc]
  rw [peelSafe pagePre1 ⟨by decide, by decide⟩]
  rw [peelSafe title ht]
  rw [peelSafe pagePre2 ⟨by decide, by decide⟩]
  rw [peelSafe title ht]
  rw [peelSafe pagePre3 ⟨by decide, by decide⟩]
  rw [peelSafe _ (⟨by decide, by decide⟩ :
    scSafe "\n    <div style=\"font-size:13px;color:var(--muted)\">status=")]
  rw [peelEscI]
  rw [peelSafe _ (⟨by decide, by decide⟩ : scSafe "　time=")]
  rw [peelEscI]
  rw [peelSafe _ (⟨by decide, by decide⟩ : scSafe "ms　path=")]
  rw [peelEscI]
  rw [peelSafe _ (⟨by decide, by decide⟩ :
    scSafe "</div>\n    <p>下はサーバーの最新応答です（常にネットから取得）。</p>\n    <pre>")]
  rw [peelEscI]
  rw [peelSafe _ (⟨by decide, by decide⟩ :
    scSafe "</pre>\n    <p><a class=\"btn\" href=\"")]
  rw [peelSafe bh hbh]
  rw [peelSafe _ (⟨by decide, by decide⟩ : scSafe "\">← 検索画面に戻る</a></p>")]
  decide

/-- No script tag can occur in the network-error fallback page, whatever
the upstream error message. -/
theorem wrapErr_noscript (title msg : String) (ht : scSafe title) :
    strHasSub (wrapSimplePageHtml title (netErrBody msg)) "<script>" = false := by
  unfold strHasSub
  apply noScript_of_noSc
  unfold wrapSimplePageHtml netErrBody
  repeat rw [data_append]
  repeat rw [escapeHtml_data]
  repeat rw [List.append_assoc]
  rw [peelSafe pagePre1 ⟨by decide, by decide⟩]
  rw [peelSafe title ht]
  rw [peelSafe pagePre2 ⟨by decide, by decide⟩]
  rw [peelSafe title ht]
  rw [peelSafe pagePre3 ⟨by decide, by decide⟩]
  rw [peelSafe _ (⟨by decide, by decide⟩ : scSafe "<p>最新画面を取得できません。</p><pre>")]
  rw [peelEscI]
  rw [peelSafe _ (⟨by decide, by decide⟩ : scSafe "</pre>")]
  decide
theorem hasSubL_embed (a b c r : List Char) :
    hasSubL (a ++ (b ++ c)) (a ++ (b ++ (c ++ r))) = true := by
  have h : a ++ (b ++ (c ++ r)) = (a ++ (b ++ c)) ++ r := by
    simp [List.append_assoc]
  rw [h]
  exact hasSubL_here _ _

/-- The rendered diagnostic page always embeds the resolved return link. -/
theorem page_has_link (title pathname pretty bh : String) (status ms : Nat) :
    strHasSub (wrapSimplePageHtml title (diagBody status ms pathname pretty bh))
      ("href=\"" ++ bh ++ "\"") = true := by
  unfold strHasSub wrapSimplePageHtml diagBody
  repeat rw [data_append]
  repeat rw [escapeHtml_data]
  have h4 : ("</pre>\n    <p><a class=\"btn\" href=\"" : String).data
      = ("</pre>\n    <p><a class=\"btn\" " : String).data ++ ("href=\"" : String).data := by
    decide
  have h5 : ("\">← 検索画面に戻る</a></p>" : String).data
      = ("\"" : String).data ++ (">← 検索画面に戻る</a></p>" : String).data := by
    decide
  rw [h4, h5]
  repeat rw [List.append_assoc]
  apply hasSubL_append_left
  apply hasSubL_append_left
  apply hasSubL_append_left
  apply hasSubL_append_left
  apply hasSubL_append_left
  apply hasSubL_append_left
  apply hasSubL_append_left
  apply hasSubL_append_left
  apply hasSubL_append_left
  apply hasSubL_append_left
  apply hasSubL_append_left
  apply hasSubL_append_left
  apply hasSubL_append_left
  apply hasSubL_append_left
  exact hasSubL_embed _ _ _ _
/-! ## Branch equations for the variant B fetch listener -/

theorem fetchB_document (ver : String) (net : Net) (store : CacheStore) (n : Nat)
    (req : Request) (hdoc : isDocumentReq req = true) :
    handleFetchB ver net store n req =
      match net n req with
      | .ok r => ⟨some r, store, 1⟩
      | .error _ =>
        match cacheGet ((storeFind store (staticCacheName ver)).getD []) ("/ui", none) with
        | some hit => ⟨some hit, cachesOpen store (staticCacheName ver), 1⟩
        | none => ⟨some offlineResp, cachesOpen store (staticCacheName ver), 1⟩ := by
  unfold handleFetchB
  cases hf : net n req <;> simp [hdoc, opened_cache, hf]

theorem fetchB_retry (ver : String) (net : Net) (store : CacheStore) (n : Nat)
    (req : Request) (hdoc : isDocumentReq req = false)
    (hbr : strStarts req.pathname "/api/" = true ∨
      (req.method == "GET" && (strStarts req.pathname "/static/" ||
        strStarts req.pathname "/favicon")) = false) :
    handleFetchB ver net store n req =
      match net n req with
      | .ok r => ⟨some r, store, 1⟩
      | .error _ =>
        match net (n + 1) req with
        | .ok r => ⟨some r, store, 2⟩
        | .error _ => ⟨none, store, 2⟩ := by
  unfold handleFetchB
  rcases hbr with h | h
  · cases hf : net n req <;> simp [hdoc, h, hf]
  · by_cases ha : strStarts req.pathname "/api/" = true
    · cases hf : net n req <;> simp [hdoc, ha, hf]
    · rw [Bool.not_eq_true] at ha
      cases hf : net n req <;> simp [hdoc, ha, h, hf]

theorem fetchB_static_mismatch (ver w : String) (net : Net) (store : CacheStore)
    (n : Nat) (req : Request)
    (hdoc : isDocumentReq req = false)
    (hapi : strStarts req.pathname "/api/" = false)
    (hget : req.method = "GET")
    (hpre : strStarts req.pathname "/static/" = true ∨
      strStarts req.pathname "/favicon" = true)
    (hv : req.searchV = some w) (hne : w ≠ ver) :
    handleFetchB ver net store n req =
      match net n req with
      | .ok r => ⟨some r, cachesOpen store (staticCacheName ver), 1⟩
      | .error _ => ⟨some unavailableResp, cachesOpen store (staticCacheName ver), 1⟩ := by
  have hcond : (req.method == "GET" &&
      (strStarts req.pathname "/static/" || strStarts req.pathname "/favicon")) = true := by
    rcases hpre with h | h <;> simp [hget, h]
  have hvm : (req.searchV == none || req.searchV == some ver) = false := by
    simp [hv, hne]
  unfold handleFetchB
  cases hf : net n req <;> simp [hdoc, hapi, hcond, hvm, hf]

theorem fetchB_static_hit (ver : String) (net : Net) (store : CacheStore) (n : Nat)
    (req : Request) (r : Response)
    (hdoc : isDocumentReq req = false)
    (hapi : strStarts req.pathname "/api/" = false)
    (hget : req.method = "GET")
    (hpre : strStarts req.pathname "/static/" = true ∨
      strStarts req.pathname "/favicon" = true)
    (hvm : req.searchV = none ∨ req.searchV = some ver)
    (hhit : storeEntry store (staticCacheName ver) (reqKey req) = some r) :
    handleFetchB ver net store n req = ⟨some r, store, 0⟩ := by
  have hcond : (req.method == "GET" &&
      (strStarts req.pathname "/static/" || strStarts req.pathname "/favicon")) = true := by
    rcases hpre with h | h <;> simp [hget, h]
  have hvm' : (req.searchV == none || req.searchV == some ver) = true := by
    rcases hvm with h | h <;> simp [h]
  have hfind : ∃ c, storeFind store (staticCacheName ver) = some c := by
    cases hf : storeFind store (staticCacheName ver) with
    | none =>
      unfold storeEntry at hhit
      rw [hf] at hhit
      simp [cacheGet] at hhit
    | some c => exact ⟨c, rfl⟩
  obtain ⟨c, hc⟩ := hfind
  unfold storeEntry at hhit
  unfold handleFetchB
  simp [hdoc, hapi, hcond, hvm', opened_cache, hhit, cachesOpen_present store _ c hc]

theorem fetchB_static_miss (ver : String) (net : Net) (store : CacheStore) (n : Nat)
    (req : Request)
    (hdoc : isDocumentReq req = false)
    (hapi : strStarts req.pathname "/api/" = false)
    (hget : req.method = "GET")
    (hpre : strStarts req.pathname "/static/" = true ∨
      strStarts req.pathname "/favicon" = true)
    (hvm : req.searchV = none ∨ req.searchV = some ver)
    (hmiss : storeEntry store (staticCacheName ver) (reqKey req) = none) :
    handleFetchB ver net store n req =
      match net n req with
      | .ok r =>
        if r.ok then
          ⟨some r, storeSet (cachesOpen store (staticCacheName ver)) (staticCacheName ver)
            (cachePut ((storeFind store (staticCacheName ver)).getD []) (reqKey req) r), 1⟩
        else ⟨some r, cachesOpen store (staticCacheName ver), 1⟩
      | .error _ => ⟨some unavailableResp, cachesOpen store (staticCacheName ver), 1⟩ := by
  have hcond : (req.method == "GET" &&
      (strStarts req.pathname "/static/" || strStarts req.pathname "/favicon")) = true := by
    rcases hpre with h | h <;> simp [hget, h]
  have hvm' : (req.searchV == none || req.searchV == some ver) = true := by
    rcases hvm with h | h <;> simp [h]
  unfold storeEntry at hmiss
  unfold handleFetchB
  cases hf : net n req <;> simp [hdoc, hapi, hcond, hvm', opened_cache, hmiss, hf]
/-! ## Claim theorems -/

/-- C1 (amended): for a static GET whose version parameter equals the
active version and whose key is absent from the store, the first request
performs exactly one network fetch, and when the network response is ok it
is persisted into the active cache generation before being returned; every
subsequent identical request is then served from the store with zero
network calls and leaves the store unchanged. -/
theorem claimC1_amended (ver : String) (net net2 : Net) (store : CacheStore)
    (n m : Nat) (req : Request) (r : Response)
    (hdoc : isDocumentReq req = false)
    (hapi : strStarts req.pathname "/api/" = false)
    (hget : req.method = "GET")
    (hpre : strStarts req.pathname "/static/" = true ∨
      strStarts req.pathname "/favicon" = true)
    (hv : req.searchV = some ver)
    (hmiss : storeEntry store (staticCacheName ver) (reqKey req) = none)
    (hnet : net n req = Except.ok r) (hok : r.ok = true) :
    (handleFetchB ver net store n req).response = some r ∧
    (handleFetchB ver net store n req).calls = 1 ∧
    storeEntry (handleFetchB ver net store n req).store
      (staticCacheName ver) (reqKey req) = some r ∧
    (handleFetchB ver net2 (handleFetchB ver net store n req).store m req).response
      = some r ∧
    (handleFetchB ver net2 (handleFetchB ver net store n req).store m req).calls = 0 ∧
    (handleFetchB ver net2 (handleFetchB ver net store n req).store m req).store
      = (handleFetchB ver net store n req).store := by
  have h1 := fetchB_static_miss ver net store n req hdoc hapi hget hpre
    (Or.inr hv) hmiss
  rw [hnet] at h1
  simp only [hok, if_true] at h1
  have hentry : storeEntry (handleFetchB ver net store n req).store
      (staticCacheName ver) (reqKey req) = some r := by
    rw [h1]
    unfold storeEntry
    rw [storeFind_set_same (staticCacheName ver) _ _ _ (storeFind_open_same store _)]
    simp [cacheGet_put_same]
  have h2 := fetchB_static_hit ver net2 (handleFetchB ver net store n req).store m req r
    hdoc hapi hget hpre (Or.inr hv) hentry
  refine ⟨by rw [h1], by rw [h1], hentry, by rw [h2], by rw [h2], by rw [h2]⟩

/-- C1 (counterexample): with an upstream that answers 404, the first
request against an empty store does not persist the response, and the
identical repeat request performs another network call instead of being
served from the store with zero network calls. -/
theorem claimC1_counterexample :
    (handleFetchB "5" (fun _ _ => Except.ok ⟨404, [], "nf"⟩)
        [] 0 ⟨"GET", "/static/app.js", some "5", "", "", "", ""⟩).response
      = some ⟨404, [], "nf"⟩ ∧
    storeEntry (handleFetchB "5" (fun _ _ => Except.ok ⟨404, [], "nf"⟩)
        [] 0 ⟨"GET", "/static/app.js", some "5", "", "", "", ""⟩).store
      (staticCacheName "5") ("/static/app.js", some "5") = none ∧
    (handleFetchB "5" (fun _ _ => Except.ok ⟨404, [], "nf"⟩)
      (handleFetchB "5" (fun _ _ => Except.ok ⟨404, [], "nf"⟩)
        [] 0 ⟨"GET", "/static/app.js", some "5", "", "", "", ""⟩).store
      0 ⟨"GET", "/static/app.js", some "5", "", "", "", ""⟩).calls = 1 := by
  refine ⟨by decide, by decide, by decide⟩

/-- C1 (witness): instantiation of the amended claim at a concrete
matching request, empty store, and an upstream that answers 200. -/
theorem claimC1_witness :
    (handleFetchB "5" (fun _ _ => Except.ok ⟨200, [], "js"⟩)
        [] 0 ⟨"GET", "/static/app.js", some "5", "", "", "", ""⟩).response
      = some ⟨200, [], "js"⟩ ∧
    storeEntry (handleFetchB "5" (fun _ _ => Except.ok ⟨200, [], "js"⟩)
        [] 0 ⟨"GET", "/static/app.js", some "5", "", "", "", ""⟩).store
      (staticCacheName "5") ("/static/app.js", some "5") = some ⟨200, [], "js"⟩ ∧
    (handleFetchB "5" (fun _ _ => Except.error "down")
      (handleFetchB "5" (fun _ _ => Except.ok ⟨200, [], "js"⟩)
        [] 0 ⟨"GET", "/static/app.js", some "5", "", "", "", ""⟩).store
      0 ⟨"GET", "/static/app.js", some "5", "", "", "", ""⟩).calls = 0 := by
  obtain ⟨h1, _, h3, _, h5, _⟩ := claimC1_amended "5"
    (fun _ _ => Except.ok ⟨200, [], "js"⟩) (fun _ _ => Except.error "down") [] 0 0
    ⟨"GET", "/static/app.js", some "5", "", "", "", ""⟩ ⟨200, [], "js"⟩
    (by decide) (by decide) rfl (Or.inl (by decide)) rfl (by decide) rfl (by decide)
  exact ⟨h1, h3, h5⟩
/-- C2 (confirmed): for a static GET whose version parameter differs from
the active version, the response never depends on the store contents (the
store is not consulted), exactly one network fetch is attempted, a
successful fetch is returned as is, a failed fetch yields the distinct
empty-body 504 response, and no stored entry changes. -/
theorem claimC2 (ver w : String) (net : Net) (store store2 : CacheStore)
    (n : Nat) (req : Request)
    (hdoc : isDocumentReq req = false)
    (hapi : strStarts req.pathname "/api/" = false)
    (hget : req.method = "GET")
    (hpre : strStarts req.pathname "/static/" = true ∨
      strStarts req.pathname "/favicon" = true)
    (hv : req.searchV = some w) (hne : w ≠ ver) :
    (handleFetchB ver net store n req).response
      = (handleFetchB ver net store2 n req).response ∧
    (handleFetchB ver net store n req).calls = 1 ∧
    (∀ r : Response, net n req = Except.ok r →
      (handleFetchB ver net store n req).response = some r) ∧
    (isNetErr (net n req) = true →
      (handleFetchB ver net store n req).response = some unavailableResp) ∧
    unavailableResp.status = 504 ∧ unavailableResp.body = "" ∧
    (∀ (nm : String) (k : CacheKey),
      storeEntry (handleFetchB ver net store n req).store nm k = storeEntry store nm k) := by
  have h1 := fetchB_static_mismatch ver w net store n req hdoc hapi hget hpre hv hne
  have h2 := fetchB_static_mismatch ver w net store2 n req hdoc hapi hget hpre hv hne
  have hstore : (handleFetchB ver net store n req).store
      = cachesOpen store (staticCacheName ver) := by
    rw [h1]; cases hf : net n req <;> simp [hf]
  refine ⟨?_, ?_, ?_, ?_, rfl, rfl, ?_⟩
  · rw [h1, h2]; cases hf : net n req <;> simp [hf]
  · rw [h1]; cases hf : net n req <;> simp [hf]
  · intro r hr; rw [h1, hr]
  · intro herr
    cases hf : net n req with
    | ok r => rw [hf] at herr; simp [isNetErr] at herr
    | error e => rw [h1, hf]
  · intro nm k
    rw [hstore]
    by_cases hn : nm = staticCacheName ver
    · subst hn; unfold storeEntry; rw [opened_cache]
    · unfold storeEntry; rw [storeFind_open_other store _ nm hn]

/-- C2 (witness): instantiation at a concrete mismatched request, two
different stores, and a failing network. -/
theorem claimC2_witness :
    (handleFetchB "5" (fun _ _ => Except.error "down")
        [] 0 ⟨"GET", "/static/app.js", some "4", "", "", "", ""⟩).response
      = (handleFetchB "5" (fun _ _ => Except.error "down")
        [(staticCacheName "5", [(("/static/app.js", some "4"), ⟨200, [], "old"⟩)])]
        0 ⟨"GET", "/static/app.js", some "4", "", "", "", ""⟩).response ∧
    (handleFetchB "5" (fun _ _ => Except.error "down")
        [] 0 ⟨"GET", "/static/app.js", some "4", "", "", "", ""⟩).response
      = some unavailableResp := by
  obtain ⟨h1, _, _, h4, _, _, _⟩ := claimC2 "5" "4" (fun _ _ => Except.error "down")
    [] [(staticCacheName "5", [(("/static/app.js", some "4"), ⟨200, [], "old"⟩)])] 0
    ⟨"GET", "/static/app.js", some "4", "", "", "", ""⟩
    (by decide) (by decide) rfl (Or.inl (by decide)) rfl (by decide)
  exact ⟨h1, h4 (by decide)⟩
/-- C5 (amended): a static GET without a version query parameter is
treated by the precaching variant as version-matching and handled
cache-first — a stored entry is served with zero network calls, and an ok
network response on a miss is persisted — while requests in the residual
"other" category are handled network-only with no persistence: their
response is independent of the store and the store is left unchanged. -/
theorem claimC5_amended (ver : String) (net : Net) (store store2 : CacheStore)
    (n : Nat) (req : Request)
    (hdoc : isDocumentReq req = false)
    (hapi : strStarts req.pathname "/api/" = false) :
    ((req.method = "GET" ∧ (strStarts req.pathname "/static/" = true ∨
        strStarts req.pathname "/favicon" = true) ∧ req.searchV = none) →
      (∀ r : Response, storeEntry store (staticCacheName ver) (reqKey req) = some r →
        handleFetchB ver net store n req = ⟨some r, store, 0⟩) ∧
      (∀ r : Response, storeEntry store (staticCacheName ver) (reqKey req) = none →
        net n req = Except.ok r → r.ok = true →
        storeEntry (handleFetchB ver net store n req).store
          (staticCacheName ver) (reqKey req) = some r)) ∧
    ((req.method == "GET" && (strStarts req.pathname "/static/" ||
        strStarts req.pathname "/favicon")) = false →
      (handleFetchB ver net store n req).store = store ∧
      (handleFetchB ver net store n req).response
        = (handleFetchB ver net store2 n req).response) := by
  constructor
  · rintro ⟨hget, hpre, hv⟩
    constructor
    · intro r hhit
      exact fetchB_static_hit ver net store n req r hdoc hapi hget hpre (Or.inl hv) hhit
    · intro r hmiss hnet hok
      have h1 := fetchB_static_miss ver net store n req hdoc hapi hget hpre
        (Or.inl hv) hmiss
      rw [hnet] at h1
      simp only [hok, if_true] at h1
      rw [h1]
      unfold storeEntry
      rw [storeFind_set_same (staticCacheName ver) _ _ _ (storeFind_open_same store _)]
      simp [cacheGet_put_same]
  · intro hno
    have h1 := fetchB_retry ver net store n req hdoc (Or.inr hno)
    have h2 := fetchB_retry ver net store2 n req hdoc (Or.inr hno)
    constructor
    · rw [h1]
      cases hf : net n req with
      | ok r => simp [hf]
      | error e => cases hg : net (n + 1) req <;> simp [hf, hg]
    · rw [h1, h2]
      cases hf : net n req with
      | ok r => simp [hf]
      | error e => cases hg : net (n + 1) req <;> simp [hf, hg]

/-- C5 (counterexample): an unversioned static GET with a matching stored
entry is served from the cache store with zero network calls, so it is not
handled network-only, and a fresh unversioned static fetch is persisted. -/
theorem claimC5_counterexample :
    (handleFetchB "5" (fun _ _ => Except.error "down")
        [(staticCacheName "5", [(("/static/app.js", none), ⟨200, [], "cached"⟩)])]
        0 ⟨"GET", "/static/app.js", none, "", "", "", ""⟩).response
      = some ⟨200, [], "cached"⟩ ∧
    (handleFetchB "5" (fun _ _ => Except.error "down")
        [(staticCacheName "5", [(("/static/app.js", none), ⟨200, [], "cached"⟩)])]
        0 ⟨"GET", "/static/app.js", none, "", "", "", ""⟩).calls = 0 ∧
    storeEntry (handleFetchB "5" (fun _ _ => Except.ok ⟨200, [], "fresh"⟩)
        [] 0 ⟨"GET", "/static/app.js", none, "", "", "", ""⟩).store
      (staticCacheName "5") ("/static/app.js", none) = some ⟨200, [], "fresh"⟩ := by
  refine ⟨by decide, by decide, by decide⟩

/-- C5 (witness): instantiation of the amended claim at a concrete
unversioned static request with a stored entry, and at a concrete
other-category request over two stores. -/
theorem claimC5_witness :
    handleFetchB "5" (fun _ _ => Except.error "down")
        [(staticCacheName "5", [(("/static/app.js", none), ⟨200, [], "cached"⟩)])]
        0 ⟨"GET", "/static/app.js", none, "", "", "", ""⟩
      = ⟨some ⟨200, [], "cached"⟩,
          [(staticCacheName "5", [(("/static/app.js", none), ⟨200, [], "cached"⟩)])], 0⟩ ∧
    (handleFetchB "5" (fun _ _ => Except.ok ⟨200, [], "page"⟩)
        [(staticCacheName "5", [])] 0 ⟨"GET", "/data/x", none, "", "", "", ""⟩).store
      = [(staticCacheName "5", [])] := by
  constructor
  · exact ((claimC5_amended "5" (fun _ _ => Except.error "down")
      [(staticCacheName "5", [(("/static/app.js", none), ⟨200, [], "cached"⟩)])] []
      0 ⟨"GET", "/static/app.js", none, "", "", "", ""⟩ (by decide) (by decide)).1
      ⟨rfl, Or.inl (by decide), rfl⟩).1 ⟨200, [], "cached"⟩ (by decide)
  · exact ((claimC5_amended "5" (fun _ _ => Except.ok ⟨200, [], "page"⟩)
      [(staticCacheName "5", [])] [] 0 ⟨"GET", "/data/x", none, "", "", "", ""⟩
      (by decide) (by decide)).2 (by decide)).1
/-- C10 (confirmed): on a version-matched static miss only an ok network
response is persisted — a non-ok response is returned to the caller while
the stored entries stay untouched — and the fetch listener as a whole
preserves the invariant that the store only ever contains ok responses. -/
theorem claimC10 (ver : String) (net : Net) (store : CacheStore) (n : Nat)
    (req : Request) (r : Response)
    (hdoc : isDocumentReq req = false)
    (hapi : strStarts req.pathname "/api/" = false)
    (hget : req.method = "GET")
    (hpre : strStarts req.pathname "/static/" = true ∨
      strStarts req.pathname "/favicon" = true)
    (hvm : req.searchV = none ∨ req.searchV = some ver)
    (hmiss : storeEntry store (staticCacheName ver) (reqKey req) = none)
    (hnet : net n req = Except.ok r) (hnok : r.ok = false) :
    (handleFetchB ver net store n req).response = some r ∧
    (∀ (nm : String) (k : CacheKey),
      storeEntry (handleFetchB ver net store n req).store nm k = storeEntry store nm k) ∧
    (∀ (net2 : Net) (store2 : CacheStore) (m : Nat) (req2 : Request),
      okStore store2 → okStore (handleFetchB ver net2 store2 m req2).store) := by
  have h1 := fetchB_static_miss ver net store n req hdoc hapi hget hpre hvm hmiss
  rw [hnet] at h1
  simp [hnok] at h1
  refine ⟨by rw [h1], ?_, ?_⟩
  · intro nm k
    rw [h1]
    by_cases hn : nm = staticCacheName ver
    · subst hn; unfold storeEntry; rw [opened_cache]
    · unfold storeEntry; rw [storeFind_open_other store _ nm hn]
  · intro net2 store2 m req2 hok2
    by_cases hd : isDocumentReq req2 = true
    · rw [fetchB_document ver net2 store2 m req2 hd]
      cases hf : net2 m req2 with
      | ok rr => simpa using hok2
      | error e =>
        cases hg : cacheGet ((storeFind store2 (staticCacheName ver)).getD [])
            ("/ui", none) with
        | some hit => simpa using okStore_open store2 (staticCacheName ver) hok2
        | none => simpa using okStore_open store2 (staticCacheName ver) hok2
    · rw [Bool.not_eq_true] at hd
      by_cases hbr : strStarts req2.pathname "/api/" = true
      · rw [fetchB_retry ver net2 store2 m req2 hd (Or.inl hbr)]
        cases hf : net2 m req2 with
        | ok rr => simpa using hok2
        | error e => cases hg : net2 (m + 1) req2 <;> simpa [hg] using hok2
      · rw [Bool.not_eq_true] at hbr
        by_cases hst : (req2.method == "GET" && (strStarts req2.pathname "/static/" ||
            strStarts req2.pathname "/favicon")) = true
        · by_cases hvm2 : (req2.searchV == none || req2.searchV == some ver) = true
          · have hvm2' : req2.searchV = none ∨ req2.searchV = some ver := by
              rcases hq : req2.searchV with _ | w
              · exact Or.inl rfl
              · right
                rw [hq] at hvm2
                simp only [Bool.or_eq_true, beq_iff_eq] at hvm2
                rcases hvm2 with h | h
                · exact absurd h (by simp)
                · rw [h]
            have hget2 : req2.method = "GET" := by
              simp only [Bool.and_eq_true, beq_iff_eq] at hst
              exact hst.1
            have hpre2 : strStarts req2.pathname "/static/" = true ∨
                strStarts req2.pathname "/favicon" = true := by
              simp only [Bool.and_eq_true, Bool.or_eq_true] at hst
              exact hst.2
            cases hent : storeEntry store2 (staticCacheName ver) (reqKey req2) with
            | some hit =>
              rw [fetchB_static_hit ver net2 store2 m req2 hit hd hbr hget2 hpre2
                hvm2' hent]
              exact hok2
            | none =>
              rw [fetchB_static_miss ver net2 store2 m req2 hd hbr hget2 hpre2
                hvm2' hent]
              cases hf : net2 m req2 with
              | ok rr =>
                by_cases hro : rr.ok = true
                · simp only [hro, if_true]
                  have hex : ∃ c0,
                      storeFind (cachesOpen store2 (staticCacheName ver))
                        (staticCacheName ver) = some c0 :=
                    ⟨_, storeFind_open_same store2 (staticCacheName ver)⟩
                  have hput := okStore_put (cachesOpen store2 (staticCacheName ver))
                    (staticCacheName ver) (reqKey req2) rr
                    (okStore_open store2 (staticCacheName ver) hok2) hex hro
                  simpa [opened_cache] using hput
                · rw [Bool.not_eq_true] at hro
                  simpa [hro] using okStore_open store2 (staticCacheName ver) hok2
              | error e => simpa using okStore_open store2 (staticCacheName ver) hok2
          · rw [Bool.not_eq_true] at hvm2
            have hsv : ∃ w, req2.searchV = some w ∧ w ≠ ver := by
              rcases hq : req2.searchV with _ | w
              · rw [hq] at hvm2; simp at hvm2
              · refine ⟨w, rfl, ?_⟩
                intro hEq
                rw [hq, hEq] at hvm2
                simp at hvm2
            obtain ⟨w, hw, hwne⟩ := hsv
            have hget2 : req2.method = "GET" := by
              simp only [Bool.and_eq_true, beq_iff_eq] at hst
              exact hst.1
            have hpre2 : strStarts req2.pathname "/static/" = true ∨
                strStarts req2.pathname "/favicon" = true := by
              simp only [Bool.and_eq_true, Bool.or_eq_true] at hst
              exact hst.2
            rw [fetchB_static_mismatch ver w net2 store2 m req2 hd hbr hget2 hpre2
              hw hwne]
            cases hf : net2 m req2 with
            | ok rr => simpa using okStore_open store2 (staticCacheName ver) hok2
            | error e => simpa using okStore_open store2 (staticCacheName ver) hok2
        · rw [Bool.not_eq_true] at hst
          rw [fetchB_retry ver net2 store2 m req2 hd (Or.inr hst)]
          cases hf : net2 m req2 with
          | ok rr => simpa using hok2
          | error e => cases hg : net2 (m + 1) req2 <;> simpa [hg] using hok2

/-- C10 (witness): instantiation at a concrete version-matched miss whose
upstream answers 404 over a store satisfying the ok-only invariant. -/
theorem claimC10_witness :
    (handleFetchB "5" (fun _ _ => Except.ok ⟨404, [], "nf"⟩)
        [] 0 ⟨"GET", "/static/app.js", some "5", "", "", "", ""⟩).response
      = some ⟨404, [], "nf"⟩ ∧
    storeEntry (handleFetchB "5" (fun _ _ => Except.ok ⟨404, [], "nf"⟩)
        [] 0 ⟨"GET", "/static/app.js", some "5", "", "", "", ""⟩).store
      (staticCacheName "5") ("/static/app.js", some "5")
      = storeEntry [] (staticCacheName "5") ("/static/app.js", some "5") := by
  obtain ⟨h1, h2, _⟩ := claimC10 "5" (fun _ _ => Except.ok ⟨404, [], "nf"⟩) [] 0
    ⟨"GET", "/static/app.js", some "5", "", "", "", ""⟩ ⟨404, [], "nf"⟩
    (by decide) (by decide) rfl (Or.inl (by decide)) (Or.inr rfl) (by decide) rfl
    (by decide)
  exact ⟨h1, h2 (staticCacheName "5") ("/static/app.js", some "5")⟩
/-- C4 (amended): the variant B fetch listener always hands a well-formed
response to respondWith on its document and static paths, but on the api
and other paths it retries once and, when both network attempts reject,
the rejection propagates and no response is produced; the variant A
network-only helper, in contrast, catches every failure and returns a
well-formed 503 or error page. -/
theorem claimC4_amended (ver : String) (net : Net) (store : CacheStore) (n : Nat)
    (req : Request) :
    ((handleFetchB ver net store n req).response = none ↔
      ((classifyB req = Category.api ∨ classifyB req = Category.other) ∧
        isNetErr (net n req) = true ∧ isNetErr (net (n + 1) req) = true)) ∧
    (∀ (net2 : Net) (m : Nat) (req2 : Request), isNetErr (net2 m req2) = true →
      (networkOnly net2 m req2 false).1
        = ⟨503, [("Cache-Control", "no-store")], "Network error"⟩ ∧
      (networkOnly net2 m req2 true).1.status = 200) := by
  constructor
  · by_cases hd : isDocumentReq req = true
    · rw [fetchB_document ver net store n req hd]
      have hcl : classifyB req = Category.document := by simp [classifyB, hd]
      cases hf : net n req with
      | ok r => simp [hcl]
      | error e =>
        cases hg : cacheGet ((storeFind store (staticCacheName ver)).getD [])
            ("/ui", none) with
        | some hit => simp [hcl]
        | none => simp [hcl]
    · rw [Bool.not_eq_true] at hd
      by_cases ha : strStarts req.pathname "/api/" = true
      · rw [fetchB_retry ver net store n req hd (Or.inl ha)]
        have hcl : classifyB req = Category.api := by simp [classifyB, hd, ha]
        cases hf : net n req with
        | ok r => simp [hcl, hf, isNetErr]
        | error e =>
          cases hg : net (n + 1) req <;> simp [hcl, hf, hg, isNetErr]
      · rw [Bool.not_eq_true] at ha
        by_cases hst : (req.method == "GET" && (strStarts req.pathname "/static/" ||
            strStarts req.pathname "/favicon")) = true
        · have hget : req.method = "GET" := by
            simp only [Bool.and_eq_true, beq_iff_eq] at hst
            exact hst.1
          have hpre : strStarts req.pathname "/static/" = true ∨
              strStarts req.pathname "/favicon" = true := by
            simp only [Bool.and_eq_true, Bool.or_eq_true] at hst
            exact hst.2
          have hclne : classifyB req ≠ Category.api ∧ classifyB req ≠ Category.other := by
            constructor <;>
              · simp only [classifyB, hd, ha, hst]
                cases hq : req.searchV.isSome <;> simp [hq]
          by_cases hvm : (req.searchV == none || req.searchV == some ver) = true
          · have hvm' : req.searchV = none ∨ req.searchV = some ver := by
              rcases hq : req.searchV with _ | w
              · exact Or.inl rfl
              · right
                rw [hq] at hvm
                simp only [Bool.or_eq_true, beq_iff_eq] at hvm
                rcases hvm with h | h
                · exact absurd h (by simp)
                · rw [h]
            cases hent : storeEntry store (staticCacheName ver) (reqKey req) with
            | some hit =>
              rw [fetchB_static_hit ver net store n req hit hd ha hget hpre hvm' hent]
              simp [hclne.1, hclne.2]
            | none =>
              rw [fetchB_static_miss ver net store n req hd ha hget hpre hvm' hent]
              cases hf : net n req with
              | ok r => by_cases hro : r.ok = true <;> simp [hro, hclne.1, hclne.2]
              | error e => simp [hclne.1, hclne.2]
          · rw [Bool.not_eq_true] at hvm
            have hsv : ∃ w, req.searchV = some w ∧ w ≠ ver := by
              rcases hq : req.searchV with _ | w
              · rw [hq] at hvm; simp at hvm
              · refine ⟨w, rfl, ?_⟩
                intro hEq
                rw [hq, hEq] at hvm
                simp at hvm
            obtain ⟨w, hw, hwne⟩ := hsv
            rw [fetchB_static_mismatch ver w net store n req hd ha hget hpre hw hwne]
            cases hf : net n req with
            | ok r => simp [hclne.1, hclne.2]
            | error e => simp [hclne.1, hclne.2]
        · rw [Bool.not_eq_true] at hst
          rw [fetchB_retry ver net store n req hd (Or.inr hst)]
          have hcl : classifyB req = Category.other := by
            simp [classifyB, hd, ha, hst]
          cases hf : net n req with
          | ok r => simp [hcl, hf, isNetErr]
          | error e =>
            cases hg : net (n + 1) req <;> simp [hcl, hf, hg, isNetErr]
  · intro net2 m req2 herr
    cases hf : net2 m req2 with
    | ok r => rw [hf] at herr; simp [isNetErr] at herr
    | error e => constructor <;> simp [networkOnly, hf, wrapSimplePage]

/-- C4 (counterexample): an api request whose fetch and retry both reject
produces no response at all — the promise handed to respondWith rejects —
so not every fetch-handling path returns a well-formed response. -/
theorem claimC4_counterexample :
    (handleFetchB "5" (fun _ _ => Except.error "down")
        [] 0 ⟨"POST", "/api/chat", none, "", "", "", ""⟩).response = none := by
  decide

/-- C4 (witness): instantiation at a concrete api request with a failing
network, and the variant A helper on the same failure. -/
theorem claimC4_witness :
    ((handleFetchB "5" (fun _ _ => Except.error "down")
        [] 0 ⟨"POST", "/api/chat", none, "", "", "", ""⟩).response = none ↔
      ((classifyB ⟨"POST", "/api/chat", none, "", "", "", ""⟩ = Category.api ∨
        classifyB ⟨"POST", "/api/chat", none, "", "", "", ""⟩ = Category.other) ∧
        isNetErr (Except.error "down" : Except String Response) = true ∧
        isNetErr (Except.error "down" : Except String Response) = true)) ∧
    (networkOnly (fun _ _ => Except.error "down") 0
        ⟨"POST", "/api/chat", none, "", "", "", ""⟩ false).1
      = ⟨503, [("Cache-Control", "no-store")], "Network error"⟩ := by
  obtain ⟨h1, h2⟩ := claimC4_amended "5" (fun _ _ => Except.error "down") [] 0
    ⟨"POST", "/api/chat", none, "", "", "", ""⟩
  exact ⟨h1, (h2 (fun _ _ => Except.error "down") 0
    ⟨"POST", "/api/chat", none, "", "", "", ""⟩ (by decide)).1⟩
/-- C3 (amended): after a successful install of the precaching variant,
its activation leaves exactly the current cache generation queryable; even
without a prior install its activation leaves at most the current
generation; the other variant deletes every generation outright, leaving
none queryable.  In all cases, repeated install/activate cycles never
leave a prior generation reachable. -/
theorem claimC3_amended (ver : String) (net : Request → Except String Response)
    (store store' : CacheStore) :
    (installB ver net store = some store' →
      ∀ k : String, k ∈ cachesKeys (activateB ver store') ↔ k = staticCacheName ver) ∧
    (∀ (s : CacheStore) (k : String),
      k ∈ cachesKeys (activateB ver s) → k = staticCacheName ver) ∧
    (∀ s : CacheStore, activateA s = []) := by
  refine ⟨?_, fun s k => activateB_keys ver s k, ?_⟩
  · intro hins k
    constructor
    · exact activateB_keys ver store' k
    · rintro rfl
      have hmem : staticCacheName ver ∈ cachesKeys store' := by
        unfold installB at hins
        by_cases hall : (precacheReqs ver).all (fun r => exceptOk (net r)) = true
        · rw [if_pos hall] at hins
          cases hins
          rw [cachesKeys_storeSet]
          exact mem_of_storeFind (staticCacheName ver) _ _
            (storeFind_open_same store (staticCacheName ver))
        · rw [Bool.not_eq_true] at hall
          rw [hall] at hins
          simp at hins
      exact activateB_keeps_current ver store' hmem
  · intro s
    apply deleteAll_covered
    intro p hp
    exact List.mem_map_of_mem Prod.fst hp

/-- C3 (counterexample): the variant A activate listener deletes every
cache, so after its activation zero generations remain queryable rather
than exactly one. -/
theorem claimC3_counterexample :
    activateA [(staticCacheName "2025-11-01", [])] = [] ∧
    (cachesKeys (activateA [(staticCacheName "2025-11-01", [])])).length = 0 := by
  refine ⟨by decide, by decide⟩

/-- C3 (witness): instantiation after a concrete successful install of
version 6 over a store still holding generations 4 and 5. -/
theorem claimC3_witness :
    (installB "6" (fun _ => Except.ok ⟨200, [], "a"⟩)
        [(staticCacheName "4", []), (staticCacheName "5", [])]).isSome = true ∧
    (staticCacheName "6" ∈ cachesKeys (activateB "6"
      ((installB "6" (fun _ => Except.ok ⟨200, [], "a"⟩)
        [(staticCacheName "4", []), (staticCacheName "5", [])]).getD []))
      ↔ staticCacheName "6" = staticCacheName "6") ∧
    (staticCacheName "5" ∈ cachesKeys (activateB "6"
      ((installB "6" (fun _ => Except.ok ⟨200, [], "a"⟩)
        [(staticCacheName "4", []), (staticCacheName "5", [])]).getD []))
      ↔ staticCacheName "5" = staticCacheName "6") := by
  have hins : installB "6" (fun _ => Except.ok ⟨200, [], "a"⟩)
      [(staticCacheName "4", []), (staticCacheName "5", [])]
      = some ((installB "6" (fun _ => Except.ok ⟨200, [], "a"⟩)
        [(staticCacheName "4", []), (staticCacheName "5", [])]).getD []) := by
    rfl
  have h := (claimC3_amended "6" (fun _ => Except.ok ⟨200, [], "a"⟩)
    [(staticCacheName "4", []), (staticCacheName "5", [])]
    ((installB "6" (fun _ => Except.ok ⟨200, [], "a"⟩)
      [(staticCacheName "4", []), (staticCacheName "5", [])]).getD [])).1 hins
  exact ⟨by decide, h (staticCacheName "6"), h (staticCacheName "5")⟩
theorem keyNe (a b : String) (v : Option String) (h : a ≠ b) :
    ((a, v) : CacheKey) ≠ (b, v) := by
  intro hEq
  rw [Prod.mk.injEq] at hEq
  exact h hEq.1

/-- C7 (amended): the precache population during install is not
best-effort — `cache.addAll` is handed to `waitUntil` with no error
handling, so installation fails (and nothing is cached) whenever any
manifest asset fetch rejects or returns a non-ok response; when every
asset fetch succeeds, the newly opened generation holds all four manifest
entries. -/
theorem claimC7_amended (ver : String) (net : Request → Except String Response)
    (store : CacheStore) :
    ((precacheReqs ver).all (fun r => exceptOk (net r)) = false →
      installB ver net store = none) ∧
    (∀ store' : CacheStore, installB ver net store = some store' →
      ∀ req ∈ precacheReqs ver, ∀ resp : Response, net req = Except.ok resp →
        storeEntry store' (staticCacheName ver) (reqKey req) = some resp) := by
  constructor
  · intro hfail
    unfold installB
    rw [hfail]
    simp
  · intro store' hins req hreq resp hresp
    unfold installB at hins
    by_cases hall : (precacheReqs ver).all (fun r => exceptOk (net r)) = true
    · rw [if_pos hall] at hins
      simp only [List.all_eq_true] at hall
      cases h1 : net ⟨"GET", "/static/manifest.json", some ver, "", "", "", ""⟩ with
      | error e =>
        have := hall _ (by simp [precacheReqs] :
          (⟨"GET", "/static/manifest.json", some ver, "", "", "", ""⟩ : Request)
            ∈ precacheReqs ver)
        rw [h1] at this
        simp [exceptOk] at this
      | ok r1 =>
      cases h2 : net ⟨"GET", "/static/icons/icon-192.png", some ver, "", "", "", ""⟩ with
      | error e =>
        have := hall _ (by simp [precacheReqs] :
          (⟨"GET", "/static/icons/icon-192.png", some ver, "", "", "", ""⟩ : Request)
            ∈ precacheReqs ver)
        rw [h2] at this
        simp [exceptOk] at this
      | ok r2 =>
      cases h3 : net ⟨"GET", "/static/icons/icon-512.png", some ver, "", "", "", ""⟩ with
      | error e =>
        have := hall _ (by simp [precacheReqs] :
          (⟨"GET", "/static/icons/icon-512.png", some ver, "", "", "", ""⟩ : Request)
            ∈ precacheReqs ver)
        rw [h3] at this
        simp [exceptOk] at this
      | ok r3 =>
      cases h4 : net ⟨"GET", "/static/icons/maskable-512.png", some ver, "", "", "", ""⟩ with
      | error e =>
        have := hall _ (by simp [precacheReqs] :
          (⟨"GET", "/static/icons/maskable-512.png", some ver, "", "", "", ""⟩ : Request)
            ∈ precacheReqs ver)
        rw [h4] at this
        simp [exceptOk] at this
      | ok r4 =>
      simp only [precacheReqs, List.foldl, h1, h2, h3, h4] at hins
      rw [Option.some_inj] at hins
      subst hins
      simp only [precacheReqs, List.mem_cons, List.mem_singleton,
        List.not_mem_nil, or_false] at hreq
      rcases hreq with rfl | rfl | rfl | rfl
      · rw [h1] at hresp
        rw [Except.ok.injEq] at hresp
        subst hresp
        unfold storeEntry
        rw [storeFind_set_same _ _ _ _ (storeFind_open_same store _)]
        simp only [Option.getD_some, reqKey]
        rw [cacheGet_put_other _ _ _ (keyNe _ _ _ (by decide)) _]
        rw [cacheGet_put_other _ _ _ (keyNe _ _ _ (by decide)) _]
        rw [cacheGet_put_other _ _ _ (keyNe _ _ _ (by decide)) _]
        exact cacheGet_put_same _ _ _
      · rw [h2] at hresp
        rw [Except.ok.injEq] at hresp
        subst hresp
        unfold storeEntry
        rw [storeFind_set_same _ _ _ _ (storeFind_open_same store _)]
        simp only [Option.getD_some, reqKey]
        rw [cacheGet_put_other _ _ _ (keyNe _ _ _ (by decide)) _]
        rw [cacheGet_put_other _ _ _ (keyNe _ _ _ (by decide)) _]
        exact cacheGet_put_same _ _ _
      · rw [h3] at hresp
        rw [Except.ok.injEq] at hresp
        subst hresp
        unfold storeEntry
        rw [storeFind_set_same _ _ _ _ (storeFind_open_same store _)]
        simp only [Option.getD_some, reqKey]
        rw [cacheGet_put_other _ _ _ (keyNe _ _ _ (by decide)) _]
        exact cacheGet_put_same _ _ _
      · rw [h4] at hresp
        rw [Except.ok.injEq] at hresp
        subst hresp
        unfold storeEntry
        rw [storeFind_set_same _ _ _ _ (storeFind_open_same store _)]
        simp only [Option.getD_some, reqKey]
        exact cacheGet_put_same _ _ _
    · rw [Bool.not_eq_true] at hall
      rw [hall] at hins
      simp at hins

/-- C7 (counterexample): with the network down, installation fails
outright (`none`), refuting "failure to fetch a single manifest asset is
logged and is not fatal to installation". -/
theorem claimC7_counterexample :
    installB "2025-11-01" (fun _ => Except.error "offline") [] = none := by
  rfl

/-- C7 (witness): instantiation at a concrete failing network and a
concrete successful install. -/
theorem claimC7_witness :
    installB "6" (fun _ => Except.error "offline") [] = none ∧
    storeEntry ((installB "6" (fun _ => Except.ok ⟨200, [], "a"⟩) []).getD [])
      (staticCacheName "6") ("/static/manifest.json", some "6")
      = some ⟨200, [], "a"⟩ := by
  constructor
  · exact (claimC7_amended "6" (fun _ => Except.error "offline") []).1 (by rfl)
  · exact (claimC7_amended "6" (fun _ => Except.ok ⟨200, [], "a"⟩) []).2
      ((installB "6" (fun _ => Except.ok ⟨200, [], "a"⟩) []).getD []) (by rfl)
      ⟨"GET", "/static/manifest.json", some "6", "", "", "", ""⟩
      (by simp [precacheReqs]) ⟨200, [], "a"⟩ rfl
/-- C8 (amended): the variant B classifier checks categories in order —
document (navigation mode, document destination, or an Accept header
containing the HTML media type), then api (the reserved api prefix), then
static (reserved static/favicon prefix with the GET read method, versioned
iff a v query parameter is present), then other; the diagnostic
special-casing of /health and /version exists only in variant A and only
applies when the document check passes, not regardless of it. -/
theorem claimC8_amended (req : Request) :
    (classifyB req = Category.document ↔ isDocumentReq req = true) ∧
    (classifyB req = Category.api ↔
      (isDocumentReq req = false ∧ strStarts req.pathname "/api/" = true)) ∧
    (classifyB req = Category.staticVersioned ↔
      (isDocumentReq req = false ∧ strStarts req.pathname "/api/" = false ∧
        req.method = "GET" ∧
        (strStarts req.pathname "/static/" = true ∨
          strStarts req.pathname "/favicon" = true) ∧
        req.searchV.isSome = true)) ∧
    (classifyB req = Category.staticUnversioned ↔
      (isDocumentReq req = false ∧ strStarts req.pathname "/api/" = false ∧
        req.method = "GET" ∧
        (strStarts req.pathname "/static/" = true ∨
          strStarts req.pathname "/favicon" = true) ∧
        req.searchV = none)) ∧
    (classifyB req = Category.other ↔
      (isDocumentReq req = false ∧ strStarts req.pathname "/api/" = false ∧
        (req.method == "GET" && (strStarts req.pathname "/static/" ||
          strStarts req.pathname "/favicon")) = false)) ∧
    (classifyA req = CategoryA.diagnostic ↔
      (isDocumentReq req = true ∧
        (req.pathname = "/health" ∨ req.pathname = "/version"))) := by
  refine ⟨?_, ?_, ?_, ?_, ?_, ?_⟩
  · unfold classifyB
    split_ifs with h1 h2 h3 <;> simp_all
  · unfold classifyB
    split_ifs with h1 h2 h3 <;> simp_all
  · unfold classifyB
    split_ifs with h1 h2 h3 h4 <;> simp_all [Bool.and_eq_true, Bool.or_eq_true]
  · unfold classifyB
    split_ifs with h1 h2 h3 h4 <;>
      simp_all [Bool.and_eq_true, Bool.or_eq_true, Option.isSome_iff_exists]
    · obtain ⟨a, ha⟩ := h4
      simp [ha]
    · cases hq : req.searchV with
      | none => rfl
      | some w => exact absurd hq (h4 w)
  · unfold classifyB
    split_ifs with h1 h2 h3 h4 <;> simp_all [Bool.and_eq_true, Bool.or_eq_true]
    all_goals
      intro hs
      rcases h3.2 with h | h
      · rw [hs] at h
        simp at h
      · exact h
  · unfold classifyA
    split_ifs with h1 h2 h3 <;> simp_all [Bool.and_eq_true, Bool.or_eq_true]

/-- C8 (counterexample): a plain (non-document) GET to /health is not
classified diagnostic by the variant A listener — it falls through to the
final network-only branch — so the reserved paths are not special-cased
regardless of the preceding checks. -/
theorem claimC8_counterexample :
    classifyA ⟨"GET", "/health", none, "", "cors", "", "application/json"⟩
        ≠ CategoryA.diagnostic ∧
    classifyA ⟨"GET", "/health", none, "", "cors", "", "application/json"⟩
        = CategoryA.other := by
  refine ⟨by decide, by decide⟩

/-- C8 (witness): instantiation of the classifier characterization at a
concrete versioned static request and a concrete navigation to /health. -/
theorem claimC8_witness :
    classifyB ⟨"GET", "/static/app.js", some "5", "", "", "", ""⟩
      = Category.staticVersioned ∧
    classifyA ⟨"GET", "/health", none, "", "navigate", "", ""⟩
      = CategoryA.diagnostic := by
  constructor
  · exact (claimC8_amended ⟨"GET", "/static/app.js", some "5", "", "", "", ""⟩).2.2.1.mpr
      ⟨by decide, by decide, rfl, Or.inl (by decide), by decide⟩
  · exact (claimC8_amended ⟨"GET", "/health", none, "", "navigate", "", ""⟩).2.2.2.2.2.mpr
      ⟨by decide, Or.inl rfl⟩
/-- C6 (confirmed): escapeHtml leaves no dangerous character in its
output, and every page rendered by the diagnostic wrapper or the
network-error fallback — whose upstream-derived interpolations all pass
through escapeHtml — never contains an opening script tag, whatever the
upstream body, error message, status or path. -/
theorem claimC6 :
    (∀ s : String, (escapeHtml s).data.all (fun d => !(badChar d)) = true) ∧
    (∀ (o : OraclesA) (n : Nat) (req : Request),
      strHasSub (handleHealthOrVersion o n req).1.body "<script>" = false) ∧
    (∀ (net : Net) (n : Nat) (req : Request), isNetErr (net n req) = true →
      strHasSub (networkOnly net n req true).1.body "<script>" = false) := by
  refine ⟨fun s => escapeHtmlL_clean s.data, ?_, ?_⟩
  · intro o n req
    have hT : scSafe ("Mini Rose — " ++
        (if req.pathname == "/health" then "Health" else "Version")) := by
      cases h : req.pathname == "/health" with
      | true => exact ⟨by decide, by decide⟩
      | false => exact ⟨by decide, by decide⟩
    have hB : scSafe (decideReturnHref o.net (n + 1) req.origin).1 :=
      scSafe_of_href _ (decideReturnHref_range o.net (n + 1) req.origin)
    exact wrapDiag_noscript _ req.pathname _ _ _ _ hT hB
  · intro net n req herr
    cases hf : net n req with
    | ok r =>
      rw [hf] at herr
      simp [isNetErr] at herr
    | error e =>
      have hsel : (networkOnly net n req true).1
          = wrapSimplePage "ネットワークエラー" (netErrBody e) := by
        simp [networkOnly, hf]
      rw [hsel]
      exact wrapErr_noscript _ _ ⟨by decide, by decide⟩

/-- C6 (witness): instantiation of the fallback-page conjunct at a
concrete navigation whose fetch rejects. -/
theorem claimC6_witness :
    strHasSub (networkOnly (fun _ _ => Except.error "<script>alert(1)</script>") 0
      ⟨"GET", "/", none, "", "navigate", "", ""⟩ true).1.body "<script>" = false :=
  claimC6.2.2 (fun _ _ => Except.error "<script>alert(1)</script>") 0
    ⟨"GET", "/", none, "", "navigate", "", ""⟩ (by decide)
/-- C9 (confirmed): a document-classified request to /health or /version
is routed to the diagnostic wrapper, whose output depends only on the
fresh upstream fetch — capturing its status and the elapsed time — with
the body pretty-printed when the JSON round-trip succeeds and truncated
beyond 20000 characters otherwise, and whose return link is the shell
path when the HEAD probe answers ok, the shell path when the GET fallback
answers ok, and the origin root otherwise; the rendered page embeds that
resolved link. -/
theorem claimC9 (o : OraclesA) (req : Request)
    (hdoc : isDocumentReq req = true)
    (hpath : req.pathname = "/health" ∨ req.pathname = "/version") :
    (handleFetchA o req).1
      = wrapSimplePage ("Mini Rose — " ++
          (if req.pathname == "/health" then "Health" else "Version"))
          (diagBody (match o.net 0 req with | .ok r => r.status | .error _ => 0)
            (o.t1 - o.t0) req.pathname
            (prettify o.jsonPP
              (match o.net 0 req with | .ok r => r.body | .error e => e))
            (decideReturnHref o.net 1 req.origin).1) ∧
    (∀ p : String,
      o.jsonPP (match o.net 0 req with | .ok r => r.body | .error e => e) = some p →
      prettify o.jsonPP (match o.net 0 req with | .ok r => r.body | .error e => e)
        = p) ∧
    (∀ t : String, o.jsonPP t = none → 20000 < t.length →
      prettify o.jsonPP t = t.take 20000 ++ "\n...[truncated]...") ∧
    (∀ t : String, o.jsonPP t = none → t.length ≤ 20000 →
      prettify o.jsonPP t = t) ∧
    (exceptOk (o.net 1 (headProbe req.origin)) = true →
      (decideReturnHref o.net 1 req.origin).1 = "/ui") ∧
    (exceptOk (o.net 1 (headProbe req.origin)) = false →
      exceptOk (o.net 2 (getProbe req.origin)) = true →
      (decideReturnHref o.net 1 req.origin).1 = "/ui") ∧
    (exceptOk (o.net 1 (headProbe req.origin)) = false →
      exceptOk (o.net 2 (getProbe req.origin)) = false →
      (decideReturnHref o.net 1 req.origin).1 = "/") ∧
    strHasSub (handleFetchA o req).1.body
      ("href=\"" ++ (decideReturnHref o.net 1 req.origin).1 ++ "\"") = true := by
  have hcond : (isDocumentReq req &&
      (req.pathname == "/health" || req.pathname == "/version")) = true := by
    rcases hpath with h | h <;> simp [hdoc, h]
  have hsel : handleFetchA o req = handleHealthOrVersion o 0 req := by
    unfold handleFetchA
    rw [hcond]
    simp
  refine ⟨?_, ?_, ?_, ?_, ?_, ?_, ?_, ?_⟩
  · rw [hsel]
    rfl
  · intro p hp
    simp [prettify, hp]
  · intro t h1 h2
    unfold prettify
    rw [h1, if_pos h2]
  · intro t h1 h2
    unfold prettify
    rw [h1, if_neg (by omega)]
  · intro hh
    simp [decideReturnHref, hh]
  · intro hh hg
    simp [decideReturnHref, hh, hg]
  · intro hh hg
    simp [decideReturnHref, hh, hg]
  · rw [hsel]
    exact page_has_link _ req.pathname _ _ _ _

/-- C9 (witness): instantiation at a concrete navigation to /health with
a JSON upstream, a HEAD probe that is refused, and a GET probe that
succeeds. -/
theorem claimC9_witness :
    (decideReturnHref (fun n _ =>
        if n == 1 then Except.ok ⟨405, [], ""⟩ else Except.ok ⟨200, [], "ok"⟩)
      1 "https://x").1 = "/ui" ∧
    strHasSub (handleFetchA
      ⟨fun n _ => if n == 1 then Except.ok ⟨405, [], ""⟩ else Except.ok ⟨200, [], "ok"⟩,
        fun _ => none, 5, 12⟩
      ⟨"GET", "/health", none, "https://x", "navigate", "", ""⟩).1.body
      ("href=\"" ++ (decideReturnHref (fun n _ =>
        if n == 1 then Except.ok ⟨405, [], ""⟩ else Except.ok ⟨200, [], "ok"⟩)
        1 "https://x").1 ++ "\"") = true := by
  have h := claimC9
    ⟨fun n _ => if n == 1 then Except.ok ⟨405, [], ""⟩ else Except.ok ⟨200, [], "ok"⟩,
      fun _ => none, 5, 12⟩
    ⟨"GET", "/health", none, "https://x", "navigate", "", ""⟩
    (by decide) (Or.inl rfl)
  exact ⟨h.2.2.2.2.2.1 (by decide) (by decide), h.2.2.2.2.2.2.2⟩

end MiniRoseSW
